import Mathlib

/-!
Shallow embedding of the MSCP battery-management prototype (`main.c` together
with the packet table header `can_telem.h`) and proofs about it.

The program monitors 16 cell slots, of which two groups are populated
(Lower: slots 0-3, Upper: slots 12-15).  Each control-loop iteration reads raw
cell voltages, computes discharge decisions in `balance`, updates the per-cell
moving averages inside `print_cell_voltages`, and assembles a telemetry page
in `update_bms_page`.

Machine integers are embedded as `Nat` with explicit reductions modulo
`2 ^ 16` (for `unsigned int16`) and `2 ^ 32` (for `unsigned int32`) where the
C arithmetic can wrap.  Constants that live in the missing header `main.h`
(`N_SAMPLES`, `BALANCE_THRESHOLD`, `N_CELLS_FINAL`) are kept as parameters of
the definitions; `N_CELLS` is fixed to 16, the slot space used by every loop
of the program and by the spec.
-/

set_option maxHeartbeats 1000000

namespace BMS

/-- Number of cell slots.  `N_CELLS` is defined in `main.h`, which is not part
of the sources; the program indexes slots 0-15 and the spec fixes a 16-slot
space, so it is 16. -/
def N_CELLS : Nat := 16

/-- One cell slot (`cell_t` from the missing header, with the fields the
program uses: raw `voltage`, the FIFO `samples` history, the derived
`average_voltage`, the per-cell `discharge` constant and the inert flags). -/
structure Cell where
  voltage : Nat
  temperature : Int
  ov_flag : Nat
  uv_flag : Nat
  ot_flag : Nat
  discharge : Nat
  samples : List Nat
  average_voltage : Nat
deriving Repr, DecidableEq

/-- The per-cell discharge constants assigned by `init_cells`
(`g_cell[0].discharge = 0x00; ... g_cell[3].discharge = 0x08;`); the other
slots keep their zero from static initialization. -/
def init_cell_discharge (i : Nat) : Nat :=
  if i = 1 then 0x02 else if i = 2 then 0x04 else if i = 3 then 0x08 else 0x00

/-- `init_cells` from `main.c`: zeroes voltage, temperature and flags and sets
the discharge constants.  `samples` and `average_voltage` are not touched by
the function; they hold the static-storage zero state (`g_cell` is a `static`
array, so C zero-initializes it).  `n` is the history depth `N_SAMPLES`. -/
def init_cells (n : Nat) : Nat → Cell := fun i =>
  { voltage := 0, temperature := 0, ov_flag := 0, uv_flag := 0, ot_flag := 0,
    discharge := init_cell_discharge i,
    samples := List.replicate n 0, average_voltage := 0 }

/-- The `average_voltage` field of each slot, the only cell datum the
reference-selection and decision code reads. -/
def average_of (cells : Nat → Cell) : Nat → Nat := fun i => (cells i).average_voltage

/-- One `for` loop of `get_lowest_voltage_cell_index`:
`if (avg[i] <= avg[lowest]) lowest = i;` over the listed indices. -/
def scan_lowest (avg : Nat → Nat) (lowest : Nat) (idxs : List Nat) : Nat :=
  idxs.foldl (fun low i => if avg i ≤ avg low then i else low) lowest

/-- The indices the first loop of `get_lowest_voltage_cell_index` scans
(`for (i = 0 ; i <= 3 ; i++)`), which are also the Lower balancing group. -/
def LOWER_CELLS : List Nat := [0, 1, 2, 3]

/-- The indices the second loop of `get_lowest_voltage_cell_index` scans
(`for (i = 12 ; i <= 15 ; i++)`), which are also the Upper balancing group. -/
def UPPER_CELLS : List Nat := [12, 13, 14, 15]

/-- All scanned (populated) slots, in scan order. -/
def SCAN_ORDER : List Nat := LOWER_CELLS ++ UPPER_CELLS

/-- `get_lowest_voltage_cell_index` from `main.c`: `lowest` starts at 0, the
first loop scans slots 0-3 and the second loop continues from the same
`lowest` over slots 12-15; the comparison is `<=`, so a later slot whose
average equals the running minimum replaces it. -/
def get_lowest_voltage_cell_index (avg : Nat → Nat) : Nat :=
  scan_lowest avg (scan_lowest avg 0 LOWER_CELLS) UPPER_CELLS

/-- C subtraction of two `unsigned int16` values (the operands wrap modulo
`2 ^ 16`). -/
def c_sub16 (a b : Nat) : Nat := (a + (65536 - b % 65536)) % 65536

/-- C addition into an `unsigned int32` accumulator. -/
def c_add32 (a b : Nat) : Nat := (a + b) % 4294967296

/-- `g_discharge |= 1 << i`. -/
def set_bit (d i : Nat) : Nat := d ||| (1 <<< i)

/-- `g_discharge &= ~(1 << i)` on a 16-bit quantity: the complement of
`1 << i` in 16 bits is `0xFFFF ^ (1 << i)`. -/
def clear_bit16 (d i : Nat) : Nat := d &&& (65535 ^^^ (1 <<< i))

/-- The per-cell condition of `balance`:
`(g_cell[i].average_voltage - g_cell[min_idx].average_voltage) > BALANCE_THRESHOLD`,
with the subtraction performed on `unsigned int16` operands.  `t` is the
threshold `BALANCE_THRESHOLD` (a constant of the missing `main.h`). -/
def discharge_decision (t : Nat) (avg : Nat → Nat) (mi i : Nat) : Bool :=
  t < c_sub16 (avg i) (avg mi)

/-- One decision loop of `balance`: for each cell of the group, set or clear
bit `i - base` of the group's discharge mask according to the comparison with
the selected reference `mi` (`base` is 0 for the Lower loop and 12 for the
Upper loop). -/
def balance_step (t : Nat) (avg : Nat → Nat) (mi base : Nat) (g : List Nat) (d : Nat) : Nat :=
  g.foldl (fun d i =>
    if discharge_decision t avg mi i then set_bit d (i - base)
    else clear_bit16 d (i - base)) d

/-- The decision-and-encoding portion of `balance`: select the reference with
`get_lowest_voltage_cell_index`, then run the two decision loops on
`g_discharge1` and `g_discharge2`. -/
def balance_masks (t : Nat) (avg : Nat → Nat) (d1 d2 : Nat) : Nat × Nat :=
  let mi := get_lowest_voltage_cell_index avg
  (balance_step t avg mi 0 LOWER_CELLS d1, balance_step t avg mi 12 UPPER_CELLS d2)

/-- Whether a slot belongs to a populated group (Lower 0-3 or Upper 12-15). -/
def is_populated (i : Nat) : Bool := decide (i ≤ 3) || (decide (12 ≤ i) && decide (i ≤ 15))

/-- Modelled from the spec: `ltc6804_read_cell_voltages` lives in
`ltc6804.c`, which is not among the sources.  Per spec section 6 the external
collaborator "fills raw_voltage for all populated slots"; the environment's
readings are abstracted as `r`, truncated to the 16-bit `voltage` field. -/
def ltc6804_read_cell_voltages (cells : Nat → Cell) (r : Nat → Nat) : Nat → Cell :=
  fun i => if is_populated i then { cells i with voltage := r i % 65536 } else cells i

/-- Tag for the chip-select line `CSBI1` of the first LTC6804. -/
def CSBI1 : Nat := 1

/-- Tag for the chip-select line `CSBI2` of the second LTC6804. -/
def CSBI2 : Nat := 2

/-- The observable outcome of one call to `balance`: the cell array after its
voltage read, the two mask variables, and the configuration writes it hands to
the hardware as (select line, transmitted value) pairs. -/
structure BalanceResult where
  cells : Nat → Cell
  d1 : Nat
  d2 : Nat
  writes : List (Nat × Nat)

/-- `balance` from `main.c`: re-read the raw voltages, select the reference,
update the two discharge masks, then perform the two configuration writes.
Both writes transmit `g_discharge1` — the second call at line 237 is
`ltc6804_write_config(g_discharge1)` even though it is gated by `CSBI2`. -/
def balance (t : Nat) (cells : Nat → Cell) (r : Nat → Nat) (d1 d2 : Nat) : BalanceResult :=
  let cells2 := ltc6804_read_cell_voltages cells r
  let m := balance_masks t (average_of cells2) d1 d2
  { cells := cells2, d1 := m.1, d2 := m.2,
    writes := [(CSBI1, m.1), (CSBI2, m.1)] }

/-- The moving-average update that `print_cell_voltages` performs on one cell:
`sum` accumulates `samples[0] .. samples[N_SAMPLES-2]` (read before the shift
overwrites them), the samples shift left by one, `sum += voltage`,
`samples[N_SAMPLES-1] = voltage`, and
`average_voltage = (unsigned int16)(sum / N_SAMPLES)`. -/
def update_cell_average (n : Nat) (c : Cell) : Cell :=
  let sum := (c.samples.take (n - 1)).foldl c_add32 0
  let sum := c_add32 sum c.voltage
  { c with samples := c.samples.drop 1 ++ [c.voltage],
           average_voltage := (sum / n) % 65536 }

/-- The state effect of `print_cell_voltages`: the moving-average update runs
once for every slot `i < N_CELLS` (its `printf` output is not modelled). -/
def print_cell_voltages (n : Nat) (cells : Nat → Cell) : Nat → Cell :=
  fun i => if i < N_CELLS then update_cell_average n (cells i) else cells i

/-- `bms_page_t`: voltages (an `int16` array of `N_CELLS_FINAL` entries, kept
as 16-bit patterns), temperatures, the current placeholder and the packed
discharge byte. -/
structure BmsPage where
  voltages : List Nat
  temps : List Int
  current : Nat
  discharge : Nat
deriving Repr, DecidableEq

/-- `update_bms_page` from `main.c`.  `nFinal` is `N_CELLS_FINAL` from the
missing `main.h`.  The voltage loop runs
`for (i = 0; (i < N_CELLS) && (i < N_CELLS_FINAL); i++)` and stores
`g_cell[i].average_voltage` into `voltages[i]`; entries it does not reach keep
their previous contents.  The temperature entries come from the float array
`g_temps` (conversion excluded from scope per spec section 1), abstracted as
`tempsIn`.  `current` is the zero placeholder and `discharge` packs the two
low nibbles as `((g_discharge2 & 0xF) << 4) | (g_discharge1 & 0xF)`. -/
def update_bms_page (nFinal : Nat) (cells : Nat → Cell) (tempsIn : List Int)
    (d1 d2 : Nat) (p : BmsPage) : BmsPage :=
  { voltages := (List.range nFinal).map fun i =>
      if i < N_CELLS then (cells i).average_voltage % 65536 else p.voltages.getD i 0,
    temps := tempsIn,
    current := 0,
    discharge := ((d2 &&& 0xF) <<< 4) ||| (d1 &&& 0xF) }

/-- The mutable state the main loop carries across iterations: the cell array,
the two discharge masks, the (stale, never recomputed in the loop) converted
temperatures, and the telemetry page. -/
structure LoopState where
  cells : Nat → Cell
  d1 : Nat
  d2 : Nat
  temps : List Int
  page : BmsPage

/-- One iteration of the `while (true)` loop of `main`:
`ltc6804_read_cell_voltages` (raw readings `r1`), then `balance` (which reads
again, readings `r2`, and decides), then `print_cell_voltages` (the
moving-average update), then `update_bms_page`.  Returns the next state and
the configuration writes `balance` performed. -/
def cycle (n t nFinal : Nat) (s : LoopState) (r1 r2 : Nat → Nat) :
    LoopState × List (Nat × Nat) :=
  let cells1 := ltc6804_read_cell_voltages s.cells r1
  let b := balance t cells1 r2 s.d1 s.d2
  let cells3 := print_cell_voltages n b.cells
  let page := update_bms_page nFinal cells3 s.temps b.d1 b.d2 s.page
  ({ cells := cells3, d1 := b.d1, d2 := b.d2, temps := s.temps, page := page }, b.writes)

/-- A row of the x-macro CAN bus packet table of `can_telem.h`: symbolic name,
numeric identifier, byte length, and the data address expressed as backing
page plus byte offset (e.g. `g_bps_voltage_page+8`). -/
structure CanPacket where
  name : String
  id : Nat
  len : Nat
  page : String
  offset : Nat
deriving Repr, DecidableEq

/-- `CAN_ID_TABLE` from `can_telem.h`. -/
def CAN_ID_TABLE : List CanPacket :=
  [⟨"CAN_BPS_VOLTAGE1", 0x600, 8, "g_bps_voltage_page", 0⟩,
   ⟨"CAN_BPS_VOLTAGE2", 0x601, 8, "g_bps_voltage_page", 8⟩,
   ⟨"CAN_BPS_VOLTAGE3", 0x602, 8, "g_bps_voltage_page", 16⟩,
   ⟨"CAN_BPS_VOLTAGE4", 0x603, 6, "g_bps_voltage_page", 24⟩,
   ⟨"CAN_BPS_TEMPERATURE1", 0x608, 8, "g_bps_temperature_page", 0⟩,
   ⟨"CAN_BPS_TEMPERATURE2", 0x609, 8, "g_bps_temperature_page", 8⟩,
   ⟨"CAN_BPS_TEMPERATURE3", 0x60A, 8, "g_bps_temperature_page", 16⟩,
   ⟨"CAN_BPS_CUR_BAL_STAT", 0x60B, 8, "g_bps_cur_bal_stat_page", 0⟩]

/-- A row of the x-macro telemetry packet table: symbolic name, numeric
identifier, byte length and backing page array.  The page-declaration
expansion of the same table (`EXPAND_AS_TELEM_PAGE_DECLARATIONS`, which emits
`static int8 d[c];`) gives each backing buffer exactly `len` bytes of
capacity. -/
structure TelemPacket where
  name : String
  id : Nat
  len : Nat
  page : String
deriving Repr, DecidableEq

/-- `TELEM_ID_TABLE` from `can_telem.h`. -/
def TELEM_ID_TABLE : List TelemPacket :=
  [⟨"TELEM_BPS_VOLTAGE", 0x0B, 30, "g_bps_voltage_page"⟩,
   ⟨"TELEM_BPS_TEMPERATURE", 0x0D, 24, "g_bps_temperature_page"⟩,
   ⟨"TELEM_BPS_CUR_BAL_STAT", 0x11, 8, "g_bps_cur_bal_stat_page"⟩]

/-- `CAN_MISC_TABLE` from `can_telem.h`: command/response packets, identifier
only. -/
def CAN_MISC_TABLE : List (String × Nat) :=
  [("COMMAND_PMS_DISCONNECT_ARRAY", 0x777),
   ("RESPONSE_PMS_DISCONNECT_ARRAY", 0x778),
   ("COMMAND_ENABLE_BALANCING", 0x888),
   ("COMMAND_EVDC_DRIVE", 0x501),
   ("COMMAND_BPS_TRIP_SIGNAL", 0x303),
   ("RESPONSE_MPPT1", 0x771),
   ("RESPONSE_MPPT2", 0x772),
   ("RESPONSE_MPPT3", 0x773),
   ("RESPONSE_MPPT4", 0x774)]

/-- Modelled from the spec: "Schema Registry lookup" over the telemetry
sub-table, returning the declared byte length of the packet with the given
identifier (the tables themselves are in the sources; only this lookup
interface is the spec's phrasing). -/
def telem_lookup_len (i : Nat) : Option Nat :=
  (TELEM_ID_TABLE.find? (fun e => e.id == i)).map (fun e => e.len)

/-- Modelled from the spec: "Schema Registry lookup" over the CAN bus
sub-table, returning the declared byte length of the packet with the given
identifier. -/
def can_lookup_len (i : Nat) : Option Nat :=
  (CAN_ID_TABLE.find? (fun e => e.id == i)).map (fun e => e.len)

/-- Capacity of a backing page buffer, as declared by the
`EXPAND_AS_TELEM_PAGE_DECLARATIONS` expansion (`static int8 d[c];`): the
length column of the telemetry row that owns the page. -/
def telem_page_capacity (pname : String) : Option Nat :=
  (TELEM_ID_TABLE.find? (fun e => e.page == pname)).map (fun e => e.len)

/-! ### Concrete states and claim statements used by the theorems below -/

/-- A concrete tie: slots 1 and 13 share the minimum average 3, every other
scanned slot holds 7; the scan returns slot 13, the later of the two. -/
def tie_avg : Nat → Nat := fun i => if i = 1 ∨ i = 13 then 3 else 7
/-- A concrete average assignment matching the spec's scenario shape: Lower
averages 100, 100, 200, 90 and Upper averages all 90. -/
def scenario_avg : Nat → Nat :=
  fun i => if i = 2 then 200 else if i = 3 ∨ 12 ≤ i then 90 else 100
/-- Cells whose Upper-group averages (100) dominate the Lower ones (0), so the
two discharge masks come out different. -/
def upper_rich_cells : Nat → Cell := fun i =>
  { init_cells 4 i with average_voltage := if 12 ≤ i then 100 else 0 }
/-- One acquisition-plus-update step for a single cell: the driver stores a
raw sample `v` in `voltage` and `print_cell_voltages` then runs
`update_cell_average` on the cell (history depth `n`). -/
def feed_sample (n : Nat) (c : Cell) (v : Nat) : Cell :=
  update_cell_average n { c with voltage := v }
/-- The telemetry page in its static zero-initialized state
(`N_CELLS_FINAL = 15` voltage entries). -/
def zero_page : BmsPage :=
  { voltages := List.replicate 15 0, temps := [], current := 0, discharge := 0 }
/-- The loop state right after `init_cells` (history depth 4). -/
def start_state : LoopState :=
  { cells := init_cells 4, d1 := 0, d2 := 0, temps := [], page := zero_page }
/-- Raw readings that are all zero. -/
def quiet_reads : Nat → Nat := fun _ => 0
/-- Raw readings with a single 400-unit spike on cell 2. -/
def spike_reads : Nat → Nat := fun i => if i = 2 then 400 else 0
/-- An average assignment that agrees with the all-zero assignment on every
populated slot but differs on the inert slots 4-11 and on indices past 15. -/
def junk_on_inert_avg : Nat → Nat :=
  fun i => if 16 ≤ i then 99 else if 4 ≤ i ∧ i ≤ 11 then 77 else 0
/-- Cells identical to `init_cells 4` except that every slot's `discharge`
constant is replaced by its own index. -/
def relabeled_cells : Nat → Cell := fun i => { init_cells 4 i with discharge := i }
/-- Whether a CAN packet's declared extent fits inside the capacity of its
backing page buffer. -/
def can_packet_fits (e : CanPacket) : Bool :=
  match telem_page_capacity e.page with
  | some cap => decide (e.offset + e.len ≤ cap)
  | none => false
/-- The statement of claim C1 as written: a Lower cell's discharge decision
never depends on the `average_voltage` of any Upper cell (two average
assignments agreeing on the Lower group produce the same `g_discharge1`). -/
def C1_claim : Prop :=
  ∀ (t d1 d2 : Nat) (avg avg' : Nat → Nat),
    (∀ i ∈ LOWER_CELLS, avg i = avg' i) →
    (balance_masks t avg d1 d2).1 = (balance_masks t avg' d1 d2).1
/-- The statement of claim C2 as written: an iteration's discharge masks are
derived from averages that already incorporate the iteration's newly acquired
raw samples (i.e. they equal the decision step applied to the post-update
averages). -/
def C2_claim : Prop :=
  ∀ (n t nFinal : Nat) (s : LoopState) (r1 r2 : Nat → Nat),
    (cycle n t nFinal s r1 r2).1.d1 =
      (balance_masks t (average_of (print_cell_voltages n
        (ltc6804_read_cell_voltages (ltc6804_read_cell_voltages s.cells r1) r2)))
        s.d1 s.d2).1 ∧
    (cycle n t nFinal s r1 r2).1.d2 =
      (balance_masks t (average_of (print_cell_voltages n
        (ltc6804_read_cell_voltages (ltc6804_read_cell_voltages s.cells r1) r2)))
        s.d1 s.d2).2
/-- The statement of claim C3 as written: the page assembler puts each
populated cell's average at its logical index among populated cells — Lower
cells 0-3 at entries 0-3, Upper cells 12-15 at entries 4-7 — skipping the
unused slots 4-11. -/
def C3_claim : Prop :=
  ∀ (cells : Nat → Cell) (tempsIn : List Int) (d1 d2 : Nat) (p : BmsPage),
    (∀ k, k < 4 →
      (update_bms_page 15 cells tempsIn d1 d2 p).voltages.getD k 0 =
        (cells k).average_voltage % 65536) ∧
    (∀ k, k < 4 →
      (update_bms_page 15 cells tempsIn d1 d2 p).voltages.getD (4 + k) 0 =
        (cells (12 + k)).average_voltage % 65536)

/-! ### Reference selection: properties of `scan_lowest` -/

theorem scan_lowest_cons (avg : Nat → Nat) (l i : Nat) (rest : List Nat) :
    scan_lowest avg l (i :: rest) = scan_lowest avg (if avg i ≤ avg l then i else l) rest := rfl

theorem scan_lowest_le (avg : Nat → Nat) :
    ∀ (idxs : List Nat) (l : Nat), avg (scan_lowest avg l idxs) ≤ avg l := by
  intro idxs
  induction idxs with
  | nil => intro l; exact Nat.le_refl _
  | cons i rest ih =>
    intro l
    rw [scan_lowest_cons]
    by_cases h : avg i ≤ avg l
    · simp only [h, if_true]
      exact Nat.le_trans (ih i) h
    · simp only [h, if_false]
      exact ih l

theorem scan_lowest_le_mem (avg : Nat → Nat) :
    ∀ (idxs : List Nat) (l i : Nat), i ∈ idxs → avg (scan_lowest avg l idxs) ≤ avg i := by
  intro idxs
  induction idxs with
  | nil => intro l i hi; cases hi
  | cons j rest ih =>
    intro l i hi
    rw [scan_lowest_cons]
    rcases List.mem_cons.mp hi with hij | hmem
    · subst hij
      by_cases h : avg i ≤ avg l
      · simp only [h, if_true]
        exact scan_lowest_le avg rest i
      · simp only [h, if_false]
        exact Nat.le_trans (scan_lowest_le avg rest l) (Nat.le_of_not_le h)
    · exact ih _ i hmem

theorem scan_lowest_split (avg : Nat → Nat) :
    ∀ (idxs : List Nat) (l : Nat),
      (scan_lowest avg l idxs = l ∧ ∀ i ∈ idxs, ¬ avg i ≤ avg l) ∨
      ∃ pre post, idxs = pre ++ scan_lowest avg l idxs :: post ∧
        ∀ i ∈ post, ¬ avg i ≤ avg (scan_lowest avg l idxs) := by
  intro idxs
  induction idxs with
  | nil => intro l; exact Or.inl ⟨rfl, by intro i hi; cases hi⟩
  | cons j rest ih =>
    intro l
    rw [scan_lowest_cons]
    by_cases h : avg j ≤ avg l
    · simp only [h, if_true]
      rcases ih j with ⟨heq, hall⟩ | ⟨pre, post, heq, hall⟩
      · refine Or.inr ⟨[], rest, ?_, ?_⟩
        · simp [heq]
        · intro i hi
          rw [heq]
          exact hall i hi
      · exact Or.inr ⟨j :: pre, post, by rw [List.cons_append, ← heq], hall⟩
    · simp only [h, if_false]
      rcases ih l with ⟨heq, hall⟩ | ⟨pre, post, heq, hall⟩
      · refine Or.inl ⟨heq, ?_⟩
        intro i hi
        rcases List.mem_cons.mp hi with hij | hmem
        · subst hij; exact h
        · exact hall i hmem
      · exact Or.inr ⟨j :: pre, post, by rw [List.cons_append, ← heq], hall⟩

theorem get_lowest_eq_scan (avg : Nat → Nat) :
    get_lowest_voltage_cell_index avg = scan_lowest avg 0 SCAN_ORDER := by
  simp [get_lowest_voltage_cell_index, SCAN_ORDER, scan_lowest, List.foldl_append]

/-- C6: `get_lowest_voltage_cell_index` returns one of the scanned slots, its
`average_voltage` is less than or equal to that of every scanned slot, and it
is the last slot in scan order attaining that minimum: every strictly later
scanned slot has a strictly larger average. -/
theorem get_lowest_voltage_cell_index_spec (avg : Nat → Nat) :
    get_lowest_voltage_cell_index avg ∈ SCAN_ORDER ∧
    (∀ i ∈ SCAN_ORDER, avg (get_lowest_voltage_cell_index avg) ≤ avg i) ∧
    ∃ pre post, SCAN_ORDER = pre ++ get_lowest_voltage_cell_index avg :: post ∧
      ∀ i ∈ post, avg (get_lowest_voltage_cell_index avg) < avg i := by
  rw [get_lowest_eq_scan]
  set r := scan_lowest avg 0 SCAN_ORDER with hr
  rcases scan_lowest_split avg SCAN_ORDER 0 with ⟨heq, hall⟩ | ⟨pre, post, heq, hall⟩
  · exact absurd (Nat.le_refl (avg 0)) (hall 0 (by decide))
  · refine ⟨?_, ?_, pre, post, heq, ?_⟩
    · rw [heq]
      exact List.mem_append.mpr (Or.inr (List.mem_cons_self _ _))
    · intro i hi
      exact scan_lowest_le_mem avg SCAN_ORDER 0 i hi
    · intro i hi
      exact Nat.lt_of_not_le fun hle => hall i hi (Nat.le_trans hle (Nat.le_refl _))

/-- Witness for C6: instantiating the theorem at `tie_avg` and slot 12
discharges its membership hypothesis; separately, the returned index
evaluates to 13, the later of the two tied minima. -/
theorem get_lowest_voltage_cell_index_spec_witness :
    tie_avg (get_lowest_voltage_cell_index tie_avg) ≤ tie_avg 12 ∧
    get_lowest_voltage_cell_index tie_avg = 13 :=
  ⟨(get_lowest_voltage_cell_index_spec tie_avg).2.1 12 (by decide), by decide⟩

/-! ### Bit-level behaviour of the mask updates -/

theorem testBit_set_bit (d i j : Nat) :
    (set_bit d i).testBit j = (d.testBit j || decide (i = j)) := by
  simp [set_bit, Nat.one_shiftLeft, Nat.testBit_or, Nat.testBit_two_pow]

theorem testBit_clear_bit16 (d i j : Nat) :
    (clear_bit16 d i).testBit j = (d.testBit j && (decide (j < 16) ^^ decide (i = j))) := by
  rw [clear_bit16, show (65535 : Nat) = 2 ^ 16 - 1 from by norm_num]
  simp only [Nat.one_shiftLeft, Nat.testBit_and, Nat.testBit_xor,
             Nat.testBit_two_pow_sub_one, Nat.testBit_two_pow]

theorem testBit_mask_ite_self (c : Bool) (d k : Nat) (hk : k < 16) :
    (if c then set_bit d k else clear_bit16 d k).testBit k = c := by
  cases c <;> simp [testBit_set_bit, testBit_clear_bit16, hk]

theorem testBit_mask_ite_other (c : Bool) (d k j : Nat) (hkj : k ≠ j) (hj : j < 16) :
    (if c then set_bit d k else clear_bit16 d k).testBit j = d.testBit j := by
  cases c <;> simp [testBit_set_bit, testBit_clear_bit16, hkj, hj]

theorem balance_step_cons (t : Nat) (avg : Nat → Nat) (mi base i : Nat) (rest : List Nat)
    (d : Nat) :
    balance_step t avg mi base (i :: rest) d =
      balance_step t avg mi base rest
        (if discharge_decision t avg mi i then set_bit d (i - base)
         else clear_bit16 d (i - base)) := rfl

/-- The Lower decision loop of `balance` writes bit `i` of `g_discharge1` to
exactly the value of the per-cell comparison, for every `i` in the group. -/
theorem balance_step_lower_testBit (t : Nat) (avg : Nat → Nat) (mi : Nat) (d : Nat) :
    ∀ i ∈ LOWER_CELLS,
      (balance_step t avg mi 0 LOWER_CELLS d).testBit i = discharge_decision t avg mi i := by
  intro i hi
  rw [show LOWER_CELLS = [0, 1, 2, 3] from rfl] at hi ⊢
  simp only [balance_step_cons, show ∀ x, balance_step t avg mi 0 [] x = x from fun _ => rfl,
             Nat.sub_zero]
  rcases (by simpa using hi : i = 0 ∨ i = 1 ∨ i = 2 ∨ i = 3) with h | h | h | h <;> subst h
  · rw [testBit_mask_ite_other (discharge_decision t avg mi 3) _ 3 0 (by decide) (by decide),
        testBit_mask_ite_other (discharge_decision t avg mi 2) _ 2 0 (by decide) (by decide),
        testBit_mask_ite_other (discharge_decision t avg mi 1) _ 1 0 (by decide) (by decide),
        testBit_mask_ite_self (discharge_decision t avg mi 0) d 0 (by decide)]
  · rw [testBit_mask_ite_other (discharge_decision t avg mi 3) _ 3 1 (by decide) (by decide),
        testBit_mask_ite_other (discharge_decision t avg mi 2) _ 2 1 (by decide) (by decide),
        testBit_mask_ite_self (discharge_decision t avg mi 1) _ 1 (by decide)]
  · rw [testBit_mask_ite_other (discharge_decision t avg mi 3) _ 3 2 (by decide) (by decide),
        testBit_mask_ite_self (discharge_decision t avg mi 2) _ 2 (by decide)]
  · rw [testBit_mask_ite_self (discharge_decision t avg mi 3) _ 3 (by decide)]

/-- The Upper decision loop of `balance` writes bit `i - 12` of `g_discharge2`
to exactly the value of the per-cell comparison, for every `i` in the group. -/
theorem balance_step_upper_testBit (t : Nat) (avg : Nat → Nat) (mi : Nat) (d : Nat) :
    ∀ i ∈ UPPER_CELLS,
      (balance_step t avg mi 12 UPPER_CELLS d).testBit (i - 12) =
        discharge_decision t avg mi i := by
  intro i hi
  rw [show UPPER_CELLS = [12, 13, 14, 15] from rfl] at hi ⊢
  simp only [balance_step_cons, show ∀ x, balance_step t avg mi 12 [] x = x from fun _ => rfl,
             show (12 : Nat) - 12 = 0 from rfl, show (13 : Nat) - 12 = 1 from rfl,
             show (14 : Nat) - 12 = 2 from rfl, show (15 : Nat) - 12 = 3 from rfl]
  rcases (by simpa using hi : i = 12 ∨ i = 13 ∨ i = 14 ∨ i = 15) with h | h | h | h <;> subst h
  · rw [show (12 : Nat) - 12 = 0 from rfl,
        testBit_mask_ite_other (discharge_decision t avg mi 15) _ 3 0 (by decide) (by decide),
        testBit_mask_ite_other (discharge_decision t avg mi 14) _ 2 0 (by decide) (by decide),
        testBit_mask_ite_other (discharge_decision t avg mi 13) _ 1 0 (by decide) (by decide),
        testBit_mask_ite_self (discharge_decision t avg mi 12) d 0 (by decide)]
  · rw [show (13 : Nat) - 12 = 1 from rfl,
        testBit_mask_ite_other (discharge_decision t avg mi 15) _ 3 1 (by decide) (by decide),
        testBit_mask_ite_other (discharge_decision t avg mi 14) _ 2 1 (by decide) (by decide),
        testBit_mask_ite_self (discharge_decision t avg mi 13) _ 1 (by decide)]
  · rw [show (14 : Nat) - 12 = 2 from rfl,
        testBit_mask_ite_other (discharge_decision t avg mi 15) _ 3 2 (by decide) (by decide),
        testBit_mask_ite_self (discharge_decision t avg mi 14) _ 2 (by decide)]
  · rw [show (15 : Nat) - 12 = 3 from rfl,
        testBit_mask_ite_self (discharge_decision t avg mi 15) _ 3 (by decide)]

theorem bool_affine_set (x a b s : Bool) : ((x || s) && a || b) = (x && a || (s && a || b)) := by
  revert x a b s; decide

theorem bool_affine_clear (x a b m : Bool) : ((x && m) && a || b) = (x && (m && a) || b) := by
  revert x a b m; decide

/-- Every bit of a decision loop's output is an affine Boolean function of the
same bit of its input mask (the coefficients depend only on the comparisons,
not on the mask). -/
theorem balance_step_testBit_affine (t : Nat) (avg : Nat → Nat) (mi base : Nat)
    (g : List Nat) :
    ∃ A B : Nat → Bool, ∀ (d j : Nat),
      (balance_step t avg mi base g d).testBit j = (d.testBit j && A j || B j) := by
  induction g with
  | nil =>
    exact ⟨fun _ => true, fun _ => false, fun d j => by simp [balance_step]⟩
  | cons i rest ih =>
    obtain ⟨A, B, hAB⟩ := ih
    by_cases hc : discharge_decision t avg mi i
    · refine ⟨A, fun j => decide (i - base = j) && A j || B j, fun d j => ?_⟩
      rw [balance_step_cons, if_pos hc, hAB, testBit_set_bit]
      exact bool_affine_set _ _ _ _
    · refine ⟨fun j => (decide (j < 16) ^^ decide (i - base = j)) && A j, B, fun d j => ?_⟩
      rw [balance_step_cons, if_neg hc, hAB, testBit_clear_bit16]
      exact bool_affine_clear _ _ _ _

theorem bool_affine_idem (x a b : Bool) : ((x && a || b) && a || b) = (x && a || b) := by
  revert x a b; decide

/-- Running a decision loop twice (with the same comparison outcomes) gives
the same mask as running it once. -/
theorem balance_step_idem (t : Nat) (avg : Nat → Nat) (mi base : Nat) (g : List Nat)
    (d : Nat) :
    balance_step t avg mi base g (balance_step t avg mi base g d) =
      balance_step t avg mi base g d := by
  obtain ⟨A, B, h⟩ := balance_step_testBit_affine t avg mi base g
  apply Nat.eq_of_testBit_eq
  intro j
  rw [h, h]
  exact bool_affine_idem _ _ _

theorem balance_masks_eq (t : Nat) (avg : Nat → Nat) (d1 d2 : Nat) :
    balance_masks t avg d1 d2 =
      (balance_step t avg (get_lowest_voltage_cell_index avg) 0 LOWER_CELLS d1,
       balance_step t avg (get_lowest_voltage_cell_index avg) 12 UPPER_CELLS d2) := rfl

/-- C9: the decision-and-encoding step is idempotent — starting from any
initial mask state, running `balance`'s decision loops a second time with
unchanged `average_voltage` inputs leaves both `g_discharge1` and
`g_discharge2` at the values the first run produced. -/
theorem balance_masks_idem (t : Nat) (avg : Nat → Nat) (d1 d2 : Nat) :
    balance_masks t avg (balance_masks t avg d1 d2).1 (balance_masks t avg d1 d2).2 =
      balance_masks t avg d1 d2 := by
  simp only [balance_masks_eq]
  rw [balance_step_idem, balance_step_idem]

/-! ### The decision predicate versus true subtraction -/

theorem c_sub16_eq_sub {a b : Nat} (hb : b ≤ a) (ha : a < 65536) : c_sub16 a b = a - b := by
  unfold c_sub16
  omega

theorem scan_lowest_mem (avg : Nat → Nat) :
    ∀ (idxs : List Nat) (l : Nat),
      scan_lowest avg l idxs = l ∨ scan_lowest avg l idxs ∈ idxs := by
  intro idxs
  induction idxs with
  | nil => intro l; exact Or.inl rfl
  | cons j rest ih =>
    intro l
    rw [scan_lowest_cons]
    by_cases h : avg j ≤ avg l
    · simp only [h, if_true]
      rcases ih j with heq | hmem
      · exact Or.inr (by rw [heq]; exact List.mem_cons_self _ _)
      · exact Or.inr (List.mem_cons_of_mem _ hmem)
    · simp only [h, if_false]
      rcases ih l with heq | hmem
      · exact Or.inl heq
      · exact Or.inr (List.mem_cons_of_mem _ hmem)

theorem get_lowest_mem (avg : Nat → Nat) :
    get_lowest_voltage_cell_index avg ∈ SCAN_ORDER := by
  rw [get_lowest_eq_scan]
  rcases scan_lowest_mem avg SCAN_ORDER 0 with heq | hmem
  · rw [heq]; decide
  · exact hmem

theorem get_lowest_min (avg : Nat → Nat) :
    ∀ i ∈ SCAN_ORDER, avg (get_lowest_voltage_cell_index avg) ≤ avg i := by
  rw [get_lowest_eq_scan]
  exact fun i hi => scan_lowest_le_mem avg SCAN_ORDER 0 i hi

/-- C7: for every populated cell, the discharge bit computed by `balance` is
set exactly when the cell's `average_voltage` exceeds the selected reference's
`average_voltage` by more than the threshold (true mathematical subtraction,
which agrees with the C `unsigned int16` subtraction because the reference is
the minimum); in particular the reference cell's own bit is always cleared. -/
theorem balance_masks_decision_iff (t : Nat) (avg : Nat → Nat) (d1 d2 : Nat)
    (h16 : ∀ i ∈ SCAN_ORDER, avg i < 65536) :
    (∀ i ∈ LOWER_CELLS,
      ((balance_masks t avg d1 d2).1).testBit i =
        decide (avg i - avg (get_lowest_voltage_cell_index avg) > t)) ∧
    (∀ i ∈ UPPER_CELLS,
      ((balance_masks t avg d1 d2).2).testBit (i - 12) =
        decide (avg i - avg (get_lowest_voltage_cell_index avg) > t)) ∧
    (get_lowest_voltage_cell_index avg ∈ LOWER_CELLS →
      ((balance_masks t avg d1 d2).1).testBit (get_lowest_voltage_cell_index avg) = false) ∧
    (get_lowest_voltage_cell_index avg ∈ UPPER_CELLS →
      ((balance_masks t avg d1 d2).2).testBit (get_lowest_voltage_cell_index avg - 12) =
        false) := by
  have hdec : ∀ i ∈ SCAN_ORDER,
      discharge_decision t avg (get_lowest_voltage_cell_index avg) i =
        decide (avg i - avg (get_lowest_voltage_cell_index avg) > t) := by
    intro i hi
    unfold discharge_decision
    rw [c_sub16_eq_sub (get_lowest_min avg i hi) (h16 i hi)]
  have hlow : ∀ i ∈ LOWER_CELLS, i ∈ SCAN_ORDER := by decide
  have hup : ∀ i ∈ UPPER_CELLS, i ∈ SCAN_ORDER := by decide
  have hself : decide (avg (get_lowest_voltage_cell_index avg) -
      avg (get_lowest_voltage_cell_index avg) > t) = false := by
    simp [Nat.sub_self]
  refine ⟨?_, ?_, ?_, ?_⟩
  · intro i hi
    rw [balance_masks_eq]
    rw [balance_step_lower_testBit t avg _ d1 i hi, hdec i (hlow i hi)]
  · intro i hi
    rw [balance_masks_eq]
    rw [balance_step_upper_testBit t avg _ d2 i hi, hdec i (hup i hi)]
  · intro hmi
    rw [balance_masks_eq]
    rw [balance_step_lower_testBit t avg _ d1 _ hmi,
        hdec _ (hlow _ hmi), hself]
  · intro hmi
    rw [balance_masks_eq]
    rw [balance_step_upper_testBit t avg _ d2 _ hmi,
        hdec _ (hup _ hmi), hself]

/-- Witness for C7: at `scenario_avg` with threshold 50 the boundedness
hypothesis is discharged by evaluation; cell 2 (average 200, reference
average 90) gets its bit set, and the reference's own bit is cleared. -/
theorem balance_masks_decision_iff_witness :
    ((balance_masks 50 scenario_avg 0 0).1).testBit 2 =
      decide (scenario_avg 2 - scenario_avg (get_lowest_voltage_cell_index scenario_avg) > 50) ∧
    ((balance_masks 50 scenario_avg 0 0).2).testBit
        (get_lowest_voltage_cell_index scenario_avg - 12) = false :=
  ⟨(balance_masks_decision_iff 50 scenario_avg 0 0 (by decide)).1 2 (by decide),
   (balance_masks_decision_iff 50 scenario_avg 0 0 (by decide)).2.2.2 (by decide)⟩

/-! ### What the decision step depends on -/

theorem scan_lowest_congr (avg avg' : Nat → Nat) :
    ∀ (idxs : List Nat) (l : Nat), (∀ i ∈ idxs, avg i = avg' i) → avg l = avg' l →
      scan_lowest avg l idxs = scan_lowest avg' l idxs := by
  intro idxs
  induction idxs with
  | nil => intro l _ _; rfl
  | cons j rest ih =>
    intro l hall hl
    rw [scan_lowest_cons, scan_lowest_cons]
    have hj : avg j = avg' j := hall j (List.mem_cons_self _ _)
    rw [hj, hl]
    by_cases h : avg' j ≤ avg' l
    · simp only [h, if_true]
      exact ih j (fun i hi => hall i (List.mem_cons_of_mem _ hi)) hj
    · simp only [h, if_false]
      exact ih l (fun i hi => hall i (List.mem_cons_of_mem _ hi)) hl

theorem balance_step_congr (t : Nat) (avg avg' : Nat → Nat) (mi base : Nat) :
    ∀ (g : List Nat) (d : Nat), (∀ i ∈ g, avg i = avg' i) → avg mi = avg' mi →
      balance_step t avg mi base g d = balance_step t avg' mi base g d := by
  intro g
  induction g with
  | nil => intro d _ _; rfl
  | cons j rest ih =>
    intro d hall hmi
    rw [balance_step_cons, balance_step_cons]
    have hj : avg j = avg' j := hall j (List.mem_cons_self _ _)
    rw [show discharge_decision t avg mi j = discharge_decision t avg' mi j from by
          unfold discharge_decision; rw [hj, hmi]]
    exact ih _ (fun i hi => hall i (List.mem_cons_of_mem _ hi)) hmi

/-- Counterexample to C1: with threshold 50, averages all 51 give
`g_discharge1 = 0`, but lowering only the Upper averages to 0 (Lower
untouched at 51) makes the shared reference an Upper cell and sets all four
Lower bits, so a Lower decision changed with only Upper averages changing. -/
theorem C1_counterexample : ¬ C1_claim := by
  intro h
  have hc := h 50 0 0 (fun _ => 51) (fun i => if i ≤ 3 then 51 else 0) (by decide)
  exact absurd hc (by decide)

/-- C1 (amended): reference selection and the discharge decisions are shared
across the two groups — `balance` compares every populated cell against the
single global minimum over slots 0-3 and 12-15 — so decisions may depend on
the other group's averages, but on nothing beyond the populated slots'
averages: two assignments agreeing on all eight populated slots produce
identical masks. -/
theorem balance_masks_depends_on_populated_only (t d1 d2 : Nat) (avg avg' : Nat → Nat)
    (h : ∀ i ∈ SCAN_ORDER, avg i = avg' i) :
    balance_masks t avg d1 d2 = balance_masks t avg' d1 d2 := by
  have hmi : get_lowest_voltage_cell_index avg = get_lowest_voltage_cell_index avg' := by
    rw [get_lowest_eq_scan, get_lowest_eq_scan]
    exact scan_lowest_congr avg avg' SCAN_ORDER 0 h (h 0 (by decide))
  have hmival : avg (get_lowest_voltage_cell_index avg) =
      avg' (get_lowest_voltage_cell_index avg) := h _ (get_lowest_mem avg)
  rw [balance_masks_eq, balance_masks_eq, ← hmi]
  rw [balance_step_congr t avg avg' _ 0 LOWER_CELLS d1
        (fun i hi => h i (List.mem_append_left _ hi)) hmival,
      balance_step_congr t avg avg' _ 12 UPPER_CELLS d2
        (fun i hi => h i (List.mem_append_right _ hi)) hmival]

/-- Witness for the amended C1: the agreement hypothesis over the populated
slots is discharged by evaluation for the all-zero assignment versus
`junk_on_inert_avg`. -/
theorem balance_masks_depends_on_populated_only_witness :
    balance_masks 50 (fun _ => 0) 0 0 = balance_masks 50 junk_on_inert_avg 0 0 :=
  balance_masks_depends_on_populated_only 50 0 0 (fun _ => 0) junk_on_inert_avg (by decide)

/-- C10: the masks depend only on averages, never on the per-cell `discharge`
constants set by `init_cells`: changing only the `discharge` field of every
cell leaves both masks unchanged, and the bit a cell occupies is determined
solely by its index within its group (bit `i` for Lower cell `i`, bit
`i - 12` for Upper cell `i`). -/
theorem balance_masks_ignores_discharge_field (t d1 d2 : Nat) (cells cells' : Nat → Cell)
    (h : ∀ i, ∃ dv, cells' i = { cells i with discharge := dv }) :
    balance_masks t (average_of cells') d1 d2 = balance_masks t (average_of cells) d1 d2 ∧
    (∀ i ∈ LOWER_CELLS,
      ((balance_masks t (average_of cells) d1 d2).1).testBit i =
        discharge_decision t (average_of cells)
          (get_lowest_voltage_cell_index (average_of cells)) i) ∧
    (∀ i ∈ UPPER_CELLS,
      ((balance_masks t (average_of cells) d1 d2).2).testBit (i - 12) =
        discharge_decision t (average_of cells)
          (get_lowest_voltage_cell_index (average_of cells)) i) := by
  have havg : average_of cells' = average_of cells := by
    funext i
    obtain ⟨dv, hdv⟩ := h i
    show (cells' i).average_voltage = (cells i).average_voltage
    rw [hdv]
  refine ⟨by rw [havg], ?_, ?_⟩
  · intro i hi
    rw [balance_masks_eq]
    exact balance_step_lower_testBit t (average_of cells) _ d1 i hi
  · intro i hi
    rw [balance_masks_eq]
    exact balance_step_upper_testBit t (average_of cells) _ d2 i hi

/-- Witness for C10: instantiating the theorem with `init_cells 4` against
`relabeled_cells` discharges the differs-only-in-discharge hypothesis, and the
bit characterization is instantiated at Lower cell 2. -/
theorem balance_masks_ignores_discharge_field_witness :
    balance_masks 50 (average_of relabeled_cells) 0 0 =
      balance_masks 50 (average_of (init_cells 4)) 0 0 ∧
    ((balance_masks 50 (average_of (init_cells 4)) 0 0).1).testBit 2 =
      discharge_decision 50 (average_of (init_cells 4))
        (get_lowest_voltage_cell_index (average_of (init_cells 4))) 2 :=
  ⟨(balance_masks_ignores_discharge_field 50 0 0 (init_cells 4) relabeled_cells
      (fun i => ⟨i, rfl⟩)).1,
   (balance_masks_ignores_discharge_field 50 0 0 (init_cells 4) relabeled_cells
      (fun i => ⟨i, rfl⟩)).2.1 2 (by decide)⟩

/-! ### The duplicated configuration write -/

/-- C4: every `balance` invocation performs exactly two configuration writes,
and both transmit the final `g_discharge1` — the write gated by `CSBI2` is
byte-identical to the one gated by `CSBI1`; in a concrete run where
`g_discharge2` differs from `g_discharge1`, its value appears in no
transmitted write, so the Upper group's own mask is never sent. -/
theorem balance_transmits_discharge1_twice :
    (∀ (t : Nat) (cells : Nat → Cell) (r : Nat → Nat) (d1 d2 : Nat),
      (balance t cells r d1 d2).writes =
        [(CSBI1, (balance t cells r d1 d2).d1), (CSBI2, (balance t cells r d1 d2).d1)]) ∧
    ((balance 50 upper_rich_cells (fun _ => 0) 0 0).d2 ≠
        (balance 50 upper_rich_cells (fun _ => 0) 0 0).d1 ∧
      (balance 50 upper_rich_cells (fun _ => 0) 0 0).d2 ∉
        ((balance 50 upper_rich_cells (fun _ => 0) 0 0).writes.map Prod.snd)) :=
  ⟨fun _ _ _ _ _ => rfl, by decide, by decide⟩

/-! ### The moving-average window -/

/-- C5 (evaluation at the failing input, depth `N_SAMPLES = 4`): a fresh cell
fed 100 once shows the claimed warm-up average floor(100/4) = 25; but after a
second sample 100 the history holds [0, 0, 100, 100], whose truncated mean is
50, while the code computes 25 — the sum is taken over the pre-shift slots
0..N-2 (including the just-evicted zero) plus the new sample, skipping the
previous sample 100.  After four consecutive 100s the average is 75, not 100
as the claim requires for `N_SAMPLES` equal samples. -/
theorem update_cell_average_window_bug :
    (feed_sample 4 (init_cells 4 0) 100).average_voltage = 25 ∧
    (feed_sample 4 (feed_sample 4 (init_cells 4 0) 100) 100).samples = [0, 0, 100, 100] ∧
    ((feed_sample 4 (feed_sample 4 (init_cells 4 0) 100) 100).samples.foldl (· + ·) 0) / 4
      = 50 ∧
    (feed_sample 4 (feed_sample 4 (init_cells 4 0) 100) 100).average_voltage = 25 ∧
    (feed_sample 4 (feed_sample 4 (feed_sample 4 (feed_sample 4
        (init_cells 4 0) 100) 100) 100) 100).average_voltage = 75 := by
  decide

/-! ### Ordering of update and decision in the main loop -/

/-- Counterexample to C2: starting from the freshly initialized state with a
400-unit spike on cell 2 (threshold 50, depth 4), the iteration computes
`g_discharge1 = 0` — `balance` ran on the still-zero averages — whereas
decisions taken from the post-update averages (cell 2 average 100) would set
bit 2. -/
theorem C2_counterexample : ¬ C2_claim := by
  intro h
  have hc := (h 4 50 15 start_state quiet_reads spike_reads).1
  exact absurd hc (by decide)

theorem average_of_read (cells : Nat → Cell) (r : Nat → Nat) :
    average_of (ltc6804_read_cell_voltages cells r) = average_of cells :=
  funext fun i => by
    show (ltc6804_read_cell_voltages cells r i).average_voltage = (cells i).average_voltage
    unfold ltc6804_read_cell_voltages
    by_cases h : is_populated i <;> simp [h]

/-- C2 (amended): each iteration performs the moving-average update exactly
once per slot, but only after `balance` has computed and encoded the
discharge decisions: the iteration's masks equal the decision step applied to
the averages already stored when the iteration began (incorporating samples
only up to the previous iteration), and the iteration's final cell state is
`update_cell_average` applied exactly once to each slot after the two voltage
reads. -/
theorem cycle_decides_before_update (n t nFinal : Nat) (s : LoopState) (r1 r2 : Nat → Nat) :
    ((cycle n t nFinal s r1 r2).1.d1, (cycle n t nFinal s r1 r2).1.d2) =
      balance_masks t (average_of s.cells) s.d1 s.d2 ∧
    ∀ i, (cycle n t nFinal s r1 r2).1.cells i =
      (if i < N_CELLS then
        update_cell_average n
          (ltc6804_read_cell_voltages (ltc6804_read_cell_voltages s.cells r1) r2 i)
      else ltc6804_read_cell_voltages (ltc6804_read_cell_voltages s.cells r1) r2 i) := by
  constructor
  · show ((balance_masks t (average_of
        (ltc6804_read_cell_voltages (ltc6804_read_cell_voltages s.cells r1) r2))
          s.d1 s.d2).1,
      (balance_masks t (average_of
        (ltc6804_read_cell_voltages (ltc6804_read_cell_voltages s.cells r1) r2))
          s.d1 s.d2).2) = balance_masks t (average_of s.cells) s.d1 s.d2
    rw [average_of_read, average_of_read]
  · intro i
    rfl

/-! ### Telemetry page layout -/

/-- Counterexample to C3: with Upper averages 100 and everything else 0,
the claim puts cell 12's average 100 at entry 4, but the code stores slot 4's
average 0 there — the copy loop writes `voltages[i] = g_cell[i].average_voltage`
at the raw slot index. -/
theorem C3_counterexample : ¬ C3_claim := by
  intro h
  have hc := (h upper_rich_cells [] 0 0 zero_page).2 0 (by decide)
  exact absurd hc (by decide)

/-- C3 (amended): voltage entries are indexed by raw slot, not logical index:
entry `k < N_CELLS_FINAL` holds slot `k`'s truncated average when
`k < N_CELLS` (so the inert slots 4-11 are written with their stored averages
rather than skipped) and otherwise keeps the page's previous content; Upper
cells only appear at raw entries 12 and beyond, and not at all when
`N_CELLS_FINAL ≤ 12`. -/
theorem update_bms_page_raw_indexing (nFinal : Nat) (cells : Nat → Cell)
    (tempsIn : List Int) (d1 d2 : Nat) (p : BmsPage) (k : Nat) :
    ((update_bms_page nFinal cells tempsIn d1 d2 p).voltages)[k]? =
      (if k < nFinal then
        some (if k < N_CELLS then (cells k).average_voltage % 65536
              else p.voltages.getD k 0)
      else none) := by
  unfold update_bms_page
  rcases Nat.lt_or_ge k nFinal with h | h
  · rw [if_pos h, List.getElem?_map, List.getElem?_range h]
    rfl
  · rw [if_neg (Nat.not_lt.mpr h)]
    apply List.getElem?_eq_none
    simpa using h

/-! ### Schema registry -/

/-- C8: the registry's numeric identifiers are pairwise distinct within each
sub-table, the sub-tables have 8, 3 and 9 entries, lookups return the declared
lengths (`0x0B` yields 30, `0x603` yields 6), every telemetry entry's length
equals its backing buffer's declared capacity, and every CAN entry's
offset-plus-length fits its backing buffer. -/
theorem schema_registry_invariants :
    (CAN_ID_TABLE.map (fun e => e.id)).Nodup ∧
    (TELEM_ID_TABLE.map (fun e => e.id)).Nodup ∧
    (CAN_MISC_TABLE.map (fun e => e.2)).Nodup ∧
    CAN_ID_TABLE.length = 8 ∧ TELEM_ID_TABLE.length = 3 ∧ CAN_MISC_TABLE.length = 9 ∧
    telem_lookup_len 0x0B = some 30 ∧ can_lookup_len 0x603 = some 6 ∧
    (TELEM_ID_TABLE.all fun e => telem_page_capacity e.page == some e.len) = true ∧
    CAN_ID_TABLE.all can_packet_fits = true := by
  decide

/-- Witness for C9: idempotence instantiated at threshold 50 and the concrete
scenario averages. -/
theorem balance_masks_idem_witness :
    balance_masks 50 scenario_avg (balance_masks 50 scenario_avg 0 0).1
      (balance_masks 50 scenario_avg 0 0).2 = balance_masks 50 scenario_avg 0 0 :=
  balance_masks_idem 50 scenario_avg 0 0

/-- Witness for C4: the universal part instantiated at a concrete run. -/
theorem balance_transmits_discharge1_twice_witness :
    (balance 50 upper_rich_cells quiet_reads 0 0).writes =
      [(CSBI1, (balance 50 upper_rich_cells quiet_reads 0 0).d1),
       (CSBI2, (balance 50 upper_rich_cells quiet_reads 0 0).d1)] :=
  balance_transmits_discharge1_twice.1 50 upper_rich_cells quiet_reads 0 0

/-- Witness for the amended C2: at the concrete spiked run the masks equal the
decision step applied to the averages stored at the start of the iteration. -/
theorem cycle_decides_before_update_witness :
    ((cycle 4 50 15 start_state quiet_reads spike_reads).1.d1,
     (cycle 4 50 15 start_state quiet_reads spike_reads).1.d2) =
      balance_masks 50 (average_of start_state.cells) start_state.d1 start_state.d2 :=
  (cycle_decides_before_update 4 50 15 start_state quiet_reads spike_reads).1

/-- Witness for the amended C3: entry 4 of the assembled page holds the inert
slot 4's zero average, even though the Upper averages are 100. -/
theorem update_bms_page_raw_indexing_witness :
    ((update_bms_page 15 upper_rich_cells [] 0 0 zero_page).voltages)[4]? = some 0 := by
  rw [update_bms_page_raw_indexing 15 upper_rich_cells [] 0 0 zero_page 4]
  decide

end BMS
